import Mathlib

/-!
Verification of the `optdiff` tool (repository `op`): a program that turns a
raw LLVM pass-dump log into per-function sequences of optimization-pass
records and displays pairwise diffs of the before/after IR text.

The repository's `src/main.rs` is embedded directly below (argument handling,
color selection, the diff-printing loop and `main`'s control flow).  The
`optpipeline` module (`process`, `Pass`) is declared in `main.rs` via
`mod optpipeline` but its source file is not part of the available sources,
so the parser core is modelled from the specification (marker scanner and
pipeline assembler, spec sections 4.1 and 4.2); each such definition carries a
doc comment starting with `Modelled from the spec`.

Side effects are made explicit: terminal output and external `difft`
invocations become an event trace (`OutEvent`), the outcome of each `difft`
run is an oracle parameter, and the result of reading the input source is an
`Except` value.  A run returns its trace together with `none` (success, exit
code zero) or `some message` (the error `main` returns, exit code non-zero).
-/

namespace Optdiff

/-- Direction of an IR dump marker: before or after a pass. -/
inductive Dir where
  | beforePass
  | afterPass
deriving DecidableEq, Repr

/-- The `optpipeline::Pass` record used by `main.rs`: one optimization pass
applied to one function, with the full IR text before and after the pass. -/
structure Pass where
  name : String
  before : String
  after : String
deriving DecidableEq, Repr

/-- One recognized marker occurrence together with its captured body text
(spec section 3, "Event"). -/
structure Event where
  dir : Dir
  passName : String
  funcName : String
  body : String
deriving DecidableEq, Repr

/-- The part of an event that comes from the marker line itself (direction,
pass name, function name), without the captured body. -/
def eventKey (e : Event) : Dir × String × String :=
  (e.dir, e.passName, e.funcName)

/-- Drop an expected leading run of characters; `none` if it is not there. -/
def stripHead : List Char → List Char → Option (List Char)
  | [], ys => some ys
  | _ :: _, [] => none
  | x :: xs, y :: ys => if x = y then stripHead xs ys else none

/-- Drop an expected trailing run of characters; `none` if it is not there. -/
def stripTail (tail xs : List Char) : Option (List Char) :=
  (stripHead tail.reverse xs.reverse).map List.reverse

/-- Split at the first occurrence of a separator: `some (l, r)` with
`l ++ sep ++ r = xs` and `sep` not occurring in `l` earlier. -/
def splitFirstOn (sep : List Char) : List Char → Option (List Char × List Char)
  | [] => none
  | x :: xs =>
    match stripHead sep (x :: xs) with
    | some rest => some ([], rest)
    | none =>
      match splitFirstOn sep xs with
      | some (a, b) => some (x :: a, b)
      | none => none

/-- Split a character stream into lines at newline characters (the list of
lines is never empty; the empty stream is one empty line). -/
def splitLines : List Char → List (List Char)
  | [] => [[]]
  | c :: cs =>
    if c = '\n' then [] :: splitLines cs
    else
      match splitLines cs with
      | l :: ls => (c :: l) :: ls
      | [] => [[c]]

/-- Join body lines back with newline characters between them. -/
def joinLinesChars : List (List Char) → List Char
  | [] => []
  | [l] => l
  | l :: l₂ :: ls => l ++ '\n' :: joinLinesChars (l₂ :: ls)

/-- Modelled from the spec (section 4.1): parse the part of a marker line
after the direction keyword: the closing sentinel ` ***` must be present, and
the middle splits at the first ` on ` into pass name and function name; with
no ` on ` the dump is module-wide (anonymous bucket, keyed by the empty
string). -/
def parseMarkerTail (d : Dir) (rest : List Char) : Option (Dir × String × String) :=
  match stripTail (" ***".data) rest with
  | none => none
  | some mid =>
    match splitFirstOn (" on ".data) mid with
    | none => some (d, String.mk mid, "")
    | some (p, f) => some (d, String.mk p, String.mk f)

/-- Modelled from the spec (section 4.1): the `optpipeline` module's marker
recognizer, whose source is not among the available files.  A marker line is
"a line wrapped in a distinctive sentinel substring followed by pass name and
an `on <function>` suffix": here the LLVM form
`*** IR Dump Before <pass> on <func> ***` / `*** IR Dump After <pass> on
<func> ***`, where the ` on <func>` part may be absent.  Any line not of
this shape is not a marker. -/
def parseMarkerLine (l : List Char) : Option (Dir × String × String) :=
  match stripHead ("*** IR Dump Before ".data) l with
  | some rest => parseMarkerTail Dir.beforePass rest
  | none =>
    match stripHead ("*** IR Dump After ".data) l with
    | some rest => parseMarkerTail Dir.afterPass rest
    | none => none

/-- Scanner state: the currently open dump block, if any (marker fields plus
the body lines accumulated so far). -/
structure OpenBlock where
  dir : Dir
  passName : String
  funcName : String
  body : List (List Char)
deriving Repr

/-- Close an open block into an event, joining its body lines. -/
def closeBlock (b : OpenBlock) : Event :=
  { dir := b.dir, passName := b.passName, funcName := b.funcName,
    body := String.mk (joinLinesChars b.body) }

/-- Modelled from the spec (section 4.1): the marker scanner's line loop.
A recognized marker line closes the open block (if any) and opens a new one;
any other line is absorbed as body text of the open block, or discarded as
noise when no block is open yet; end of input closes the open block. -/
def scanGo : List (List Char) → Option OpenBlock → List Event
  | [], none => []
  | [], some b => [closeBlock b]
  | l :: ls, none =>
    match parseMarkerLine l with
    | some (d, p, f) => scanGo ls (some ⟨d, p, f, []⟩)
    | none => scanGo ls none
  | l :: ls, some b =>
    match parseMarkerLine l with
    | some (d, p, f) => closeBlock b :: scanGo ls (some ⟨d, p, f, []⟩)
    | none => scanGo ls (some { b with body := b.body ++ [l] })

/-- Modelled from the spec (section 4.1): scan a line sequence into the
stream of events, starting with no open block. -/
def scanLines (ls : List (List Char)) : List Event :=
  scanGo ls none

/-- Look a key up in an association list (first match). -/
def getAssoc {α : Type} (k : String) : List (String × α) → Option α
  | [] => none
  | (k₂, v) :: rest => if k₂ = k then some v else getAssoc k rest

/-- Replace the value stored under a key, appending the pair if absent. -/
def setAssoc {α : Type} (k : String) (v : α) : List (String × α) → List (String × α)
  | [] => [(k, v)]
  | (k₂, v₂) :: rest =>
    if k₂ = k then (k, v) :: rest else (k₂, v₂) :: setAssoc k v rest

/-- Remove the first binding of a key from an association list. -/
def removeAssoc {α : Type} (k : String) : List (String × α) → List (String × α)
  | [] => []
  | (k₂, v₂) :: rest =>
    if k₂ = k then rest else (k₂, v₂) :: removeAssoc k rest

/-- The `PipelineSet`: function names mapped to their pipelines, in
first-seen order (spec section 3). -/
abbrev PipelineSet : Type := List (String × List Pass)

/-- Ensure a function name is present in the pipeline set, appending it with
an empty pipeline if it is new (first occurrence fixes iteration order,
spec section 4.2 step 5). -/
def registerFunc (k : String) (m : PipelineSet) : PipelineSet :=
  match getAssoc k m with
  | some _ => m
  | none => m ++ [(k, [])]

/-- Append a finished pass record to a function's pipeline. -/
def appendRecord (k : String) (p : Pass) (m : PipelineSet) : PipelineSet :=
  match getAssoc k m with
  | some pl => setAssoc k (pl ++ [p]) m
  | none => m ++ [(k, [p])]

/-- The `after` text of the last record appended for a function, or the empty
string when the function has no record yet (spec section 4.2 step 3). -/
def lastAfter (k : String) (m : PipelineSet) : String :=
  match getAssoc k m with
  | some pl =>
    match pl.getLast? with
    | some p => p.after
    | none => ""
  | none => ""

/-- Assembler state: the pipeline set built so far plus, per function, the
pending Before slot (pass name and before body) awaiting its After. -/
structure AsmState where
  pipelines : PipelineSet
  pending : List (String × (String × String))

/-- Modelled from the spec (section 4.2): one assembler step.  A Before event
opens (replacing any unflushed one) the pending slot for its function; an
After event pairs with a matching pending Before into a record, and otherwise
synthesizes the record's before text from the function's last recorded after
text (empty when none).  Every event registers its function's first-seen
position. -/
def stepEvent (st : AsmState) (e : Event) : AsmState :=
  let ps := registerFunc e.funcName st.pipelines
  match e.dir with
  | Dir.beforePass =>
    { pipelines := ps,
      pending := setAssoc e.funcName (e.passName, e.body) st.pending }
  | Dir.afterPass =>
    match getAssoc e.funcName st.pending with
    | some (n, b) =>
      if n = e.passName then
        { pipelines := appendRecord e.funcName ⟨e.passName, b, e.body⟩ ps,
          pending := removeAssoc e.funcName st.pending }
      else
        { pipelines :=
            appendRecord e.funcName ⟨e.passName, lastAfter e.funcName ps, e.body⟩ ps,
          pending := st.pending }
    | none =>
      { pipelines :=
          appendRecord e.funcName ⟨e.passName, lastAfter e.funcName ps, e.body⟩ ps,
        pending := st.pending }

/-- Modelled from the spec (section 4.2): the pipeline assembler.  Pending
Before slots left open at end of input are silently dropped. -/
def assemble (events : List Event) : PipelineSet :=
  (events.foldl stepEvent ⟨[], []⟩).pipelines

/-- Modelled from the spec (section 6): `optpipeline::process`, the total
log-to-pipeline extraction `process(rawText) -> PipelineSet`, whose source
file is not among the available sources. -/
def process (s : String) : PipelineSet :=
  assemble (scanLines (splitLines s.data))

/-! ## Embedding of `src/main.rs` -/

/-- The `--color` value enumeration (`main.rs` lines 15-20). -/
inductive ColorChoice where
  | auto
  | always
  | never
deriving DecidableEq, Repr

/-- The parsed command-line arguments (`main.rs` lines 36-56). -/
structure Args where
  input : Option String
  color : ColorChoice
  skip_unchanged : Bool
  function : Option String
  list : Bool

/-- Color decision of `main.rs` lines 123-127: `Auto` follows terminal
detection, `Always` is on, `Never` is off. -/
def useColor (c : ColorChoice) (isTerminal : Bool) : Bool :=
  match c with
  | ColorChoice.auto => isTerminal
  | ColorChoice.always => true
  | ColorChoice.never => false

/-- Outcome of one external `difft` invocation: ran and exited successfully,
ran and exited unsuccessfully, or failed to spawn with an OS error message. -/
inductive DifftResult where
  | ok
  | exitFailure
  | spawnError (msg : String)
deriving DecidableEq, Repr

/-- Observable output of a run: lines printed by the program itself and
`difft` invocations (with the texts handed to the tool and the color flag). -/
inductive OutEvent where
  | funcHeader (name : String)
  | listLine (name : String)
  | diff (passName beforeText afterText : String) (color : Bool)
deriving DecidableEq, Repr

/-- The pass loop of `print_func` (`main.rs` lines 76-104): skip a pass when
`skip_unchanged` is set and its before text equals its after text byte for
byte; otherwise invoke `difft` on the two texts.  A spawn failure maps to the
error `Failed to execute difft: <cause>`, an unsuccessful exit status to the
error `difft command failed`; either stops the loop. -/
def runPasses (oracle : Pass → DifftResult) :
    List Pass → Bool → Bool → List OutEvent × Option String
  | [], _, _ => ([], none)
  | p :: rest, skip, use =>
    if skip = true ∧ p.before = p.after then runPasses oracle rest skip use
    else
      match oracle p with
      | DifftResult.spawnError m => ([], some ("Failed to execute difft: " ++ m))
      | DifftResult.exitFailure =>
        ([OutEvent.diff p.name p.before p.after use], some "difft command failed")
      | DifftResult.ok =>
        (OutEvent.diff p.name p.before p.after use :: (runPasses oracle rest skip use).1,
         (runPasses oracle rest skip use).2)

/-- `print_func` (`main.rs` lines 69-107): print the function header, then
run the pass loop. -/
def print_func (oracle : Pass → DifftResult) (func_name : String)
    (pipeline : List Pass) (skip_unchanged use_color : Bool) :
    List OutEvent × Option String :=
  (OutEvent.funcHeader func_name :: (runPasses oracle pipeline skip_unchanged use_color).1,
   (runPasses oracle pipeline skip_unchanged use_color).2)

/-- The all-functions loop of `main` (`main.rs` lines 144-147): `print_func`
on every entry in iteration order, stopping at the first error (the `?`
operator). -/
def runFuncs (oracle : Pass → DifftResult) :
    PipelineSet → Bool → Bool → List OutEvent × Option String
  | [], _, _ => ([], none)
  | (fn, pl) :: rest, skip, use =>
    match (print_func oracle fn pl skip use).2 with
    | some e => ((print_func oracle fn pl skip use).1, some e)
    | none =>
      ((print_func oracle fn pl skip use).1 ++ (runFuncs oracle rest skip use).1,
       (runFuncs oracle rest skip use).2)

/-- `main` after input reading and parsing (`main.rs` lines 122-150), as a
function of the parse result: compute the color decision, handle `--list`,
then either look the `--function` filter up (first entry with that exact
name; absent name is the error `Function '<name>' was not found in the
input`) or print every function. -/
def run_on_result (oracle : Pass → DifftResult) (args : Args) (isTerminal : Bool)
    (result : PipelineSet) : List OutEvent × Option String :=
  let use := useColor args.color isTerminal
  if args.list then
    (result.map (fun kv => OutEvent.listLine kv.1), none)
  else
    match args.function with
    | some expected =>
      match result.find? (fun kv => kv.1 == expected) with
      | none => ([], some ("Function '" ++ expected ++ "' was not found in the input"))
      | some (fn, pl) => print_func oracle fn pl args.skip_unchanged use
    | none => runFuncs oracle result args.skip_unchanged use

/-- `main` (`main.rs` lines 117-151): the input read yields either the raw
dump text or an I/O error message; a read error becomes the error
`Failed to read input: <cause>` before anything is parsed or printed. -/
def main_run (oracle : Pass → DifftResult) (args : Args) (isTerminal : Bool)
    (readResult : Except String String) : List OutEvent × Option String :=
  match readResult with
  | Except.error e => ([], some ("Failed to read input: " ++ e))
  | Except.ok dump => run_on_result oracle args isTerminal (process dump)

/-- The oracle of a run in which every `difft` invocation succeeds. -/
def okOracle : Pass → DifftResult := fun _ => DifftResult.ok

/-! ## Helper lemmas -/

/-- With an all-successful `difft` oracle the pass loop never errors. -/
theorem runPasses_okOracle_snd (pl : List Pass) (skip use : Bool) :
    (runPasses okOracle pl skip use).2 = none := by
  induction pl with
  | nil => rfl
  | cons p rest ih =>
    by_cases h : skip = true ∧ p.before = p.after
    · simpa [runPasses, h] using ih
    · simpa [runPasses, h, okOracle] using ih

/-- With an all-successful oracle and `skip_unchanged` on, the pass loop
invokes `difft` exactly on the passes whose texts differ. -/
theorem runPasses_okOracle_skip_fst (pl : List Pass) (use : Bool) :
    (runPasses okOracle pl true use).1
      = (pl.filter (fun p => p.before != p.after)).map
          (fun p => OutEvent.diff p.name p.before p.after use) := by
  induction pl with
  | nil => rfl
  | cons p rest ih =>
    by_cases h : p.before = p.after
    · simp [runPasses, h, ih]
    · simp [runPasses, h, okOracle, ih]

/-- With an all-successful oracle the all-functions loop concatenates every
function's output in order and succeeds. -/
theorem runFuncs_okOracle (result : PipelineSet) (skip use : Bool) :
    runFuncs okOracle result skip use
      = ((result.map (fun kv => (print_func okOracle kv.1 kv.2 skip use).1)).flatten,
         none) := by
  induction result with
  | nil => rfl
  | cons kv rest ih =>
    obtain ⟨fn, pl⟩ := kv
    simp [runFuncs, print_func, runPasses_okOracle_snd, ih]

/-! ## Claim theorems -/

/-- C1: when skip-unchanged mode is requested, a pass in a printed pipeline
is skipped (no `difft` invocation) exactly when its before text equals its
after text byte for byte; in particular a pass whose texts differ only by a
trailing newline is not skipped. -/
theorem claim_C1 (fn : String) (pl : List Pass) (use : Bool) :
    (print_func okOracle fn pl true use).1
        = OutEvent.funcHeader fn ::
            (pl.filter (fun p => p.before != p.after)).map
              (fun p => OutEvent.diff p.name p.before p.after use)
      ∧ ∀ p : Pass, p.after = p.before ++ "\n" → p.before ≠ p.after := by
  constructor
  · simp [print_func, runPasses_okOracle_skip_fst]
  · intro p h hcontra
    rw [h] at hcontra
    have hl := congrArg String.length hcontra
    rw [String.length_append] at hl
    have hone : ("\n" : String).length = 1 := rfl
    rw [hone] at hl
    omega

/-- Witness for C1 at a concrete pass whose texts differ only by a trailing
newline: the pass is diffed, not skipped. -/
theorem claim_C1_witness :
    (print_func okOracle "f" [⟨"P", "a", "a" ++ "\n"⟩] true false).1
        = [OutEvent.funcHeader "f", OutEvent.diff "P" "a" ("a" ++ "\n") false]
      ∧ ("a" : String) ≠ "a" ++ "\n" := by
  constructor
  · exact ((claim_C1 "f" [⟨"P", "a", "a" ++ "\n"⟩] false).1).trans (by decide)
  · exact (claim_C1 "f" [] false).2 ⟨"P", "a", "a" ++ "\n"⟩ rfl

/-- C2: with a function filter naming a function absent from the parse
result, the run produces a user-facing error naming the missing function and
aborts (non-zero exit), printing no pipeline. -/
theorem claim_C2 (oracle : Pass → DifftResult) (args : Args) (isTerminal : Bool)
    (result : PipelineSet) (f : String)
    (hlist : args.list = false) (hfun : args.function = some f)
    (habsent : ∀ kv ∈ result, kv.1 ≠ f) :
    run_on_result oracle args isTerminal result
      = ([], some ("Function '" ++ f ++ "' was not found in the input")) := by
  have hfind : result.find? (fun kv => kv.1 == f) = none := by
    rw [List.find?_eq_none]
    intro kv hkv
    simp [habsent kv hkv]
  simp [run_on_result, hlist, hfun, hfind]

/-- Witness for C2: requesting function `bar` when only `foo` was parsed. -/
theorem claim_C2_witness :
    run_on_result okOracle
        { input := none, color := ColorChoice.auto, skip_unchanged := false,
          function := some "bar", list := false } false [("foo", [])]
      = ([], some ("Function '" ++ "bar" ++ "' was not found in the input")) :=
  claim_C2 okOracle _ false [("foo", [])] "bar" rfl rfl (by decide)

/-- C7: when reading the input source fails, the run produces the error
`Failed to read input:` followed by the underlying cause, exits non-zero,
and neither parses nor prints anything. -/
theorem claim_C7 (oracle : Pass → DifftResult) (args : Args) (isTerminal : Bool)
    (cause : String) :
    main_run oracle args isTerminal (Except.error cause)
      = ([], some ("Failed to read input: " ++ cause)) := rfl

/-- C8: color use is a deterministic function of the color flag and terminal
detection: `always` is on, `never` is off, and `auto` follows whether stdout
is an interactive terminal. -/
theorem claim_C8 :
    (∀ t : Bool, useColor ColorChoice.always t = true)
      ∧ (∀ t : Bool, useColor ColorChoice.never t = false)
      ∧ (∀ t : Bool, useColor ColorChoice.auto t = t) :=
  ⟨fun _ => rfl, fun _ => rfl, fun _ => rfl⟩

/-- C10: with `--list`, the run prints exactly the parse result's function
names, one per line, in iteration order, and succeeds without any diff and
without consulting the function filter. -/
theorem claim_C10 (oracle : Pass → DifftResult) (args : Args) (isTerminal : Bool)
    (result : PipelineSet) (hlist : args.list = true) :
    run_on_result oracle args isTerminal result
      = (result.map (fun kv => OutEvent.listLine kv.1), none) := by
  simp [run_on_result, hlist]

/-- Witness for C10: listing with an unknown `--function` filter still
succeeds and prints just the names in order. -/
theorem claim_C10_witness :
    run_on_result okOracle
        { input := none, color := ColorChoice.auto, skip_unchanged := false,
          function := some "nosuch", list := true } false
        [("b", []), ("a", [])]
      = ([OutEvent.listLine "b", OutEvent.listLine "a"], none) := by
  simpa using claim_C10 okOracle _ false [("b", []), ("a", [])] rfl

/-- C6: with no function filter (and list mode off) the run prints every
function's pipeline in the pipeline set's iteration order; with a filter
naming a present function, exactly that function's pipeline is printed and
nothing else. -/
theorem claim_C6 (args : Args) (isTerminal : Bool) (result : PipelineSet)
    (hlist : args.list = false) :
    (args.function = none →
      run_on_result okOracle args isTerminal result
        = ((result.map (fun kv =>
              (print_func okOracle kv.1 kv.2 args.skip_unchanged
                (useColor args.color isTerminal)).1)).flatten,
           none))
    ∧ ∀ f : String, args.function = some f → (∃ pl, (f, pl) ∈ result) →
        ∃ pl, (f, pl) ∈ result ∧
          run_on_result okOracle args isTerminal result
            = print_func okOracle f pl args.skip_unchanged
                (useColor args.color isTerminal) := by
  constructor
  · intro hfun
    simp [run_on_result, hlist, hfun, runFuncs_okOracle]
  · intro f hfun hpresent
    obtain ⟨pl₀, hmem₀⟩ := hpresent
    have hsome : (result.find? (fun kv => kv.1 == f)).isSome := by
      rw [List.find?_isSome]
      exact ⟨(f, pl₀), hmem₀, by simp⟩
    obtain ⟨kv₀, hfind⟩ := Option.isSome_iff_exists.mp hsome
    have hkey : kv₀.1 = f := by
      have := List.find?_some hfind
      simpa using this
    refine ⟨kv₀.2, ?_, ?_⟩
    · have := List.mem_of_find?_eq_some hfind
      rwa [← hkey, Prod.mk.eta]
    · simp [run_on_result, hlist, hfun, hfind, hkey]

/-- Witness for C6: two parsed functions, printed both without a filter and
with a filter selecting the second one. -/
theorem claim_C6_witness :
    run_on_result okOracle
        { input := none, color := ColorChoice.never, skip_unchanged := false,
          function := none, list := false } false
        [("g", []), ("h", [⟨"P", "x", "y"⟩])]
      = ([OutEvent.funcHeader "g", OutEvent.funcHeader "h",
          OutEvent.diff "P" "x" "y" false], none)
    ∧ ∃ pl, ("h", pl) ∈ ([("g", []), ("h", [⟨"P", "x", "y"⟩])] : PipelineSet)
        ∧ run_on_result okOracle
            { input := none, color := ColorChoice.never, skip_unchanged := false,
              function := some "h", list := false } false
            [("g", []), ("h", [⟨"P", "x", "y"⟩])]
          = print_func okOracle "h" pl false false := by
  constructor
  · have h := (claim_C6
      { input := none, color := ColorChoice.never, skip_unchanged := false,
        function := none, list := false } false
      [("g", []), ("h", [⟨"P", "x", "y"⟩])] rfl).1 rfl
    exact h.trans (by decide)
  · have h := (claim_C6
      { input := none, color := ColorChoice.never, skip_unchanged := false,
        function := some "h", list := false } false
      [("g", []), ("h", [⟨"P", "x", "y"⟩])] rfl).2 "h" rfl
      ⟨[⟨"P", "x", "y"⟩], by decide⟩
    simpa using h

/-- An oracle under which `difft` exits unsuccessfully on the pass named
`BadPass` and succeeds on every other pass. -/
def failOracle : Pass → DifftResult :=
  fun p => if p.name = "BadPass" then DifftResult.exitFailure else DifftResult.ok

/-- C9: a `difft` spawn failure or unsuccessful exit on any non-skipped pass
makes `print_func` return an error (the spawn-failure message or
`difft command failed`) having printed nothing past that pass, and `main`
aborts non-zero printing nothing for the remaining functions. -/
theorem claim_C9 (oracle : Pass → DifftResult) :
    (∀ (skip use : Bool) (a : List Pass) (p : Pass) (b : List Pass),
      (∀ q ∈ a, (skip = true ∧ q.before = q.after) ∨ oracle q = DifftResult.ok) →
      ¬(skip = true ∧ p.before = p.after) →
      oracle p ≠ DifftResult.ok →
      ∃ e, runPasses oracle (a ++ p :: b) skip use
          = ((runPasses oracle a skip use).1 ++ (runPasses oracle [p] skip use).1,
             some e)
        ∧ (e = "difft command failed" ∨ ∃ m, e = "Failed to execute difft: " ++ m))
    ∧ ∀ (args : Args) (isTerminal : Bool) (pre : PipelineSet) (fn : String)
        (pl : List Pass) (post : PipelineSet) (e : String),
        args.list = false → args.function = none →
        (∀ kv ∈ pre,
          (print_func oracle kv.1 kv.2 args.skip_unchanged
            (useColor args.color isTerminal)).2 = none) →
        (print_func oracle fn pl args.skip_unchanged
          (useColor args.color isTerminal)).2 = some e →
        run_on_result oracle args isTerminal (pre ++ (fn, pl) :: post)
          = ((pre.map (fun kv =>
                (print_func oracle kv.1 kv.2 args.skip_unchanged
                  (useColor args.color isTerminal)).1)).flatten
              ++ (print_func oracle fn pl args.skip_unchanged
                    (useColor args.color isTerminal)).1,
             some e) := by
  constructor
  · intro skip use a p b hok hns hfail
    induction a with
    | nil =>
      cases ho : oracle p with
      | ok => exact absurd ho hfail
      | exitFailure =>
        exact ⟨"difft command failed", by simp [runPasses, hns, ho], Or.inl rfl⟩
      | spawnError m =>
        exact ⟨"Failed to execute difft: " ++ m, by simp [runPasses, hns, ho],
          Or.inr ⟨m, rfl⟩⟩
    | cons q a ih =>
      have hq := hok q (by simp)
      have hrest : ∀ r ∈ a, (skip = true ∧ r.before = r.after) ∨ oracle r = DifftResult.ok :=
        fun r hr => hok r (by simp [hr])
      obtain ⟨e, heq, hcase⟩ := ih hrest
      by_cases hskip : skip = true ∧ q.before = q.after
      · exact ⟨e, by simpa [runPasses, hskip] using heq, hcase⟩
      · have hqok : oracle q = DifftResult.ok := hq.resolve_left hskip
        exact ⟨e, by simp [runPasses, hskip, hqok, heq], hcase⟩
  · intro args isTerminal pre fn pl post e hlist hfun hpre herr
    have hloop : ∀ (pre : PipelineSet),
        (∀ kv ∈ pre,
          (print_func oracle kv.1 kv.2 args.skip_unchanged
            (useColor args.color isTerminal)).2 = none) →
        runFuncs oracle (pre ++ (fn, pl) :: post) args.skip_unchanged
            (useColor args.color isTerminal)
          = ((pre.map (fun kv =>
                (print_func oracle kv.1 kv.2 args.skip_unchanged
                  (useColor args.color isTerminal)).1)).flatten
              ++ (print_func oracle fn pl args.skip_unchanged
                    (useColor args.color isTerminal)).1,
             some e) := by
      intro pre hpre
      induction pre with
      | nil => simp [runFuncs, herr]
      | cons kv rest ih =>
        have hkv := hpre kv (by simp)
        have hrest : ∀ kv₂ ∈ rest,
            (print_func oracle kv₂.1 kv₂.2 args.skip_unchanged
              (useColor args.color isTerminal)).2 = none :=
          fun kv₂ h₂ => hpre kv₂ (List.mem_cons_of_mem _ h₂)
        obtain ⟨fn₂, pl₂⟩ := kv
        simp only at hkv
        simp [runFuncs, hkv, ih hrest]
    simp [run_on_result, hlist, hfun, hloop pre hpre]

/-- Witness for C9: `difft` fails on the single pass of the first function;
the run stops there and the second function is never printed. -/
theorem claim_C9_witness :
    (∃ e, runPasses failOracle ([] ++ (⟨"BadPass", "x", "y"⟩ : Pass) :: []) false false
        = ((runPasses failOracle [] false false).1
            ++ (runPasses failOracle [⟨"BadPass", "x", "y"⟩] false false).1,
           some e)
      ∧ (e = "difft command failed" ∨ ∃ m, e = "Failed to execute difft: " ++ m))
    ∧ run_on_result failOracle
        { input := none, color := ColorChoice.never, skip_unchanged := false,
          function := none, list := false } false
        ([] ++ ("g", [⟨"BadPass", "x", "y"⟩]) :: [("h", [⟨"P", "u", "v"⟩])])
      = ([OutEvent.funcHeader "g", OutEvent.diff "BadPass" "x" "y" false],
         some "difft command failed") := by
  constructor
  · exact (claim_C9 failOracle).1 false false [] ⟨"BadPass", "x", "y"⟩ []
      (by simp) (by decide) (by decide)
  · have h := (claim_C9 failOracle).2
      { input := none, color := ColorChoice.never, skip_unchanged := false,
        function := none, list := false } false
      [] "g" [⟨"BadPass", "x", "y"⟩] [("h", [⟨"P", "u", "v"⟩])]
      "difft command failed" rfl rfl (by simp) (by decide)
    exact h.trans (by decide)

/-- A line sequence with no marker line scans to no events. -/
theorem scanGo_none_of_no_marker (ls : List (List Char))
    (h : ∀ l ∈ ls, parseMarkerLine l = none) : scanGo ls none = [] := by
  induction ls with
  | nil => rfl
  | cons l ls ih =>
    have hl := h l (by simp)
    have hrest : ∀ l₂ ∈ ls, parseMarkerLine l₂ = none :=
      fun l₂ h₂ => h l₂ (List.mem_cons_of_mem _ h₂)
    simpa [scanGo, hl] using ih hrest

/-- The marker-derived part of the scanned events does not depend on the body
accumulated so far in the open block. -/
theorem scanGo_key_body_irrel (ls : List (List Char)) (d : Dir) (p f : String)
    (body1 body2 : List (List Char)) :
    (scanGo ls (some ⟨d, p, f, body1⟩)).map eventKey
      = (scanGo ls (some ⟨d, p, f, body2⟩)).map eventKey := by
  induction ls generalizing body1 body2 with
  | nil => rfl
  | cons l ls ih =>
    cases hl : parseMarkerLine l with
    | none => simpa [scanGo, hl] using ih (body1 ++ [l]) (body2 ++ [l])
    | some dpf =>
      obtain ⟨d₂, p₂, f₂⟩ := dpf
      simp [scanGo, hl, eventKey, closeBlock, ih]

/-- A leading non-marker line never changes the marker-derived part of the
scanned events, whatever the scanner state. -/
theorem scanGo_skip_nonmarker (ls : List (List Char)) (bad : List Char)
    (hbad : parseMarkerLine bad = none) (ob : Option OpenBlock) :
    (scanGo (bad :: ls) ob).map eventKey = (scanGo ls ob).map eventKey := by
  cases ob with
  | none => simp [scanGo, hbad]
  | some b =>
    have h := scanGo_key_body_irrel ls b.dir b.passName b.funcName
      (b.body ++ [bad]) b.body
    simpa [scanGo, hbad] using h

/-- Inserting a non-marker line anywhere preserves the marker-derived part of
the scanned events. -/
theorem scanGo_insert_key (ls1 ls2 : List (List Char)) (bad : List Char)
    (hbad : parseMarkerLine bad = none) (ob : Option OpenBlock) :
    (scanGo (ls1 ++ bad :: ls2) ob).map eventKey
      = (scanGo (ls1 ++ ls2) ob).map eventKey := by
  induction ls1 generalizing ob with
  | nil => exact scanGo_skip_nonmarker ls2 bad hbad ob
  | cons l ls1 ih =>
    cases ob with
    | none =>
      cases hl : parseMarkerLine l with
      | none => simpa [scanGo, hl] using ih none
      | some dpf =>
        obtain ⟨d₂, p₂, f₂⟩ := dpf
        simpa [scanGo, hl] using ih (some ⟨d₂, p₂, f₂, []⟩)
    | some b =>
      cases hl : parseMarkerLine l with
      | none => simpa [scanGo, hl] using ih (some { b with body := b.body ++ [l] })
      | some dpf =>
        obtain ⟨d₂, p₂, f₂⟩ := dpf
        simpa [scanGo, hl] using ih (some ⟨d₂, p₂, f₂, []⟩)

/-- With no further marker, every remaining line is absorbed into the open
block's body, which closes at end of input. -/
theorem scanGo_all_body (ls : List (List Char)) (b : OpenBlock)
    (h : ∀ l ∈ ls, parseMarkerLine l = none) :
    scanGo ls (some b) = [closeBlock { b with body := b.body ++ ls }] := by
  induction ls generalizing b with
  | nil => obtain ⟨d, p, f, body⟩ := b; simp [scanGo]
  | cons l ls ih =>
    have hl := h l (by simp)
    have hrest : ∀ l₂ ∈ ls, parseMarkerLine l₂ = none :=
      fun l₂ h₂ => h l₂ (List.mem_cons_of_mem _ h₂)
    calc scanGo (l :: ls) (some b)
        = scanGo ls (some { b with body := b.body ++ [l] }) := by simp [scanGo, hl]
      _ = [closeBlock { b with body := (b.body ++ [l]) ++ ls }] := ih _ hrest
      _ = [closeBlock { b with body := b.body ++ l :: ls }] := by
          rw [List.append_assoc]; rfl

/-- C3: an input that scans to exactly two After events (no Before) for
passes `p1` then `p2` on one function `f` is processed into a pipeline of
exactly two records, the first with empty before text and the second's
before text equal to the first's after text. -/
theorem claim_C3 (s : String) (p1 p2 f b1 b2 : String)
    (h : scanLines (splitLines s.data)
        = [⟨Dir.afterPass, p1, f, b1⟩, ⟨Dir.afterPass, p2, f, b2⟩]) :
    process s = [(f, [⟨p1, "", b1⟩, ⟨p2, b1, b2⟩])] := by
  unfold process
  rw [h]
  simp [assemble, stepEvent, registerFunc, appendRecord, getAssoc, setAssoc,
    lastAfter]

/-- Witness for C3: a concrete dump with only After markers for `P1` then
`P2` on `foo`. -/
theorem claim_C3_witness :
    process ("*** IR Dump After P1 on foo ***\nbody1\n"
        ++ "*** IR Dump After P2 on foo ***\nbody2")
      = [("foo", [⟨"P1", "", "body1"⟩, ⟨"P2", "body1", "body2"⟩])] :=
  claim_C3 _ "P1" "P2" "foo" "body1" "body2" (by decide)

/-- C4: the parse is total and degrades gracefully: a malformed or truncated
marker line never adds or removes events (the marker-derived event structure
of the scan is unchanged by its insertion), and when it sits inside a dump
block it is absorbed verbatim into that block's body text. -/
theorem claim_C4 :
    (∀ (ls1 ls2 : List (List Char)) (bad : List Char),
      parseMarkerLine bad = none →
      (scanLines (ls1 ++ bad :: ls2)).map eventKey
        = (scanLines (ls1 ++ ls2)).map eventKey)
    ∧ ∀ (m : List Char) (d : Dir) (p f : String) (bodyLines : List (List Char)),
        parseMarkerLine m = some (d, p, f) →
        (∀ l ∈ bodyLines, parseMarkerLine l = none) →
        scanLines (m :: bodyLines)
          = [⟨d, p, f, String.mk (joinLinesChars bodyLines)⟩] := by
  constructor
  · intro ls1 ls2 bad hbad
    exact scanGo_insert_key ls1 ls2 bad hbad none
  · intro m d p f bodyLines hm hbody
    unfold scanLines
    rw [show scanGo (m :: bodyLines) none = scanGo bodyLines (some ⟨d, p, f, []⟩) by
      simp [scanGo, hm]]
    rw [scanGo_all_body bodyLines _ hbody]
    rfl

/-- Witness for C4: inserting a truncated marker line changes no event
structure, and a truncated marker line inside a block lands in its body. -/
theorem claim_C4_witness :
    (scanLines (["*** IR Dump After P on f ***".data]
        ++ "*** IR Dump Afte".data :: [])).map eventKey
      = (scanLines (["*** IR Dump After P on f ***".data] ++ [])).map eventKey
    ∧ scanLines ("*** IR Dump After P on f ***".data
        :: ["za".data, "*** IR Dump Afte".data])
      = [⟨Dir.afterPass, "P", "f", "za\n*** IR Dump Afte"⟩] := by
  constructor
  · exact claim_C4.1 _ [] _ (by decide)
  · have h := claim_C4.2 ("*** IR Dump After P on f ***".data) Dir.afterPass "P" "f"
      ["za".data, "*** IR Dump Afte".data] (by decide) (by decide)
    exact h.trans (by decide)

/-- C5: an input with zero marker lines (the empty string included) is
processed into the empty pipeline set, with no error. -/
theorem claim_C5 (s : String)
    (h : ∀ l ∈ splitLines s.data, parseMarkerLine l = none) :
    process s = [] := by
  unfold process scanLines assemble
  rw [scanGo_none_of_no_marker _ h]
  rfl

/-- Witness for C5: the empty input and a marker-free input both yield the
empty pipeline set. -/
theorem claim_C5_witness :
    process "" = [] ∧ process "hello\nworld" = [] :=
  ⟨claim_C5 "" (by decide), claim_C5 "hello\nworld" (by decide)⟩

end Optdiff
